import Mathlib

/-!
Verification development for the `jupiter-phoenix` adapter (`src/src/lib.rs`):
a read-only Jupiter AMM adapter over a Phoenix on-chain order-book market.

Shallow embedding conventions:
* `u64` values are `Nat`; every Rust `u64` multiplication/addition is performed
  modulo `2 ^ 64` (`wmul` / `wadd` / `wsub`), matching release-mode wrapping
  semantics.  Division never wraps.
* A Rust panic (a failed `unwrap`, an out-of-range `split_at`, a division by
  zero) is the distinguished outcome `AdapterError.panic` of an `Except`;
  typed `anyhow` errors returned with `?` use the other constructors.
* Account byte buffers (`Vec<u8>`) are `List Nat`, each entry a byte.
* 32-byte account/mint identifiers (`Pubkey`) are opaque, modelled as `Nat`.
-/

/-- Wrap-around modulus of Rust `u64` arithmetic. -/
def u64Mod : Nat := 2 ^ 64

/-- Wrapping `u64` multiplication (release-mode Rust `*`). -/
def wmul (a b : Nat) : Nat := a * b % u64Mod

/-- Wrapping `u64` addition (release-mode Rust `+`). -/
def wadd (a b : Nat) : Nat := (a + b) % u64Mod

/-- Wrapping `u64` subtraction (release-mode Rust `-`), for `b < 2 ^ 64`. -/
def wsub (a b : Nat) : Nat := (a + u64Mod - b) % u64Mod

/-- Opaque 32-byte account / mint identifier. -/
abbrev Pubkey := Nat

/-- One price level of the ladder (`phoenix::state::markets::LadderOrder`). -/
structure LadderOrder where
  price_in_ticks : Nat
  size_in_base_lots : Nat
deriving DecidableEq, Repr

/-- The L2 order-book snapshot (`phoenix::state::markets::Ladder`): bids best
(highest) first, asks best (lowest) first. -/
structure Ladder where
  bids : List LadderOrder
  asks : List LadderOrder
deriving DecidableEq, Repr

/-- The fields of `phoenix_sdk_core::sdk_client_core::MarketMetadata` that the
adapter reads (through its `Deref` impl): decimal counts and the four
unit-conversion constants used by `quote`. -/
structure MarketMetadata where
  base_decimals : Nat
  quote_decimals : Nat
  base_atoms_per_base_lot : Nat
  quote_atoms_per_quote_lot : Nat
  num_base_lots_per_base_unit : Nat
  tick_size_in_quote_atoms_per_base_unit : Nat
deriving DecidableEq, Repr

/-- The adapter state (`struct JupiterPhoenix`). -/
structure JupiterPhoenix where
  market_key : Pubkey
  label : String
  base_mint : Pubkey
  quote_mint : Pubkey
  program_id : Pubkey
  market_metadata : MarketMetadata
  taker_fee_bps : Nat
  ladder : Ladder
deriving DecidableEq, Repr

/-- A quote request (`jupiter_core::amm::QuoteParams`). -/
structure QuoteParams where
  in_amount : Nat
  input_mint : Pubkey
  output_mint : Pubkey
deriving DecidableEq, Repr

/-- Failure outcomes of the adapter.  `panic` marks Rust panics (failed
`unwrap`, `split_at` out of range, division by zero); the remaining
constructors stand for the typed errors of the taxonomy of the spec (§7). -/
inductive AdapterError where
  | panic
  | headerDecode
  | unsupportedLayout
  | invalidMintPair
  | arithmeticOverflow
deriving DecidableEq, Repr

deriving instance DecidableEq for Except

/-- Modelled from the spec: `base_lots_and_price_to_quote_atoms` of the
external `phoenix_sdk_core` `MarketMetadata` (the crate is not in `src/`).
Per §4.4 it converts a base-lot quantity at a price into quote atoms as
`lots * price * tick_size_in_quote_atoms_per_base_unit /
num_base_lots_per_base_unit` (the tick size in quote atoms being the
spec tick-in-quote-lots times the quote lot size), in wrapping `u64` arithmetic.
Its division-by-zero panic for `num_base_lots_per_base_unit = 0` is surfaced
at the call sites in the walk functions below. -/
def base_lots_and_price_to_quote_atoms (m : MarketMetadata) (lots price : Nat) : Nat :=
  wmul (wmul lots price) m.tick_size_in_quote_atoms_per_base_unit /
    m.num_base_lots_per_base_unit

/-- The sell-base loop of `quote` (src/src/lib.rs:113-126): walk the bids,
converting `min(size, budget)` base lots to quote atoms at each level and
decrementing the budget by the full size of the level (`saturating_sub`). -/
def walkBids (m : MarketMetadata) : List LadderOrder → Nat → Nat → Except AdapterError Nat
  | [], _, out => .ok out
  | o :: rest, budget, out =>
    if budget = 0 then .ok out
    else if m.num_base_lots_per_base_unit = 0 then .error .panic
    else
      walkBids m rest (budget - o.size_in_base_lots)
        (wadd out (base_lots_and_price_to_quote_atoms m
          (min o.size_in_base_lots budget) o.price_in_ticks))

/-- The buy-base loop of `quote` (src/src/lib.rs:128-145): walk the asks; at
each level the conversion of the level into quote atoms is computed, the affordable
base lots are `budget * num_base_lots_per_base_unit /
(tick_size_in_quote_atoms_per_base_unit * price_in_ticks)` (a panic when the
wrapped divisor is zero), `min(size, affordable) * base_atoms_per_base_lot`
is accumulated, and the budget is decremented by the full conversion of the level
(`saturating_sub`). -/
def walkAsks (m : MarketMetadata) : List LadderOrder → Nat → Nat → Except AdapterError Nat
  | [], _, out => .ok out
  | o :: rest, budget, out =>
    if budget = 0 then .ok out
    else if m.num_base_lots_per_base_unit = 0 then .error .panic
    else if wmul m.tick_size_in_quote_atoms_per_base_unit o.price_in_ticks = 0 then
      .error .panic
    else
      walkAsks m rest
        (budget - base_lots_and_price_to_quote_atoms m o.size_in_base_lots o.price_in_ticks)
        (wadd out (wmul
          (min o.size_in_base_lots
            (wmul budget m.num_base_lots_per_base_unit /
              wmul m.tick_size_in_quote_atoms_per_base_unit o.price_in_ticks))
          m.base_atoms_per_base_lot))

/-- The pre-fee part of `quote` (src/src/lib.rs:110-146): direction dispatch
on `input_mint == base_mint` (there is no other mint check), conversion of the
input amount into a whole-lot budget, and the ladder walk. -/
def quoteRaw (s : JupiterPhoenix) (p : QuoteParams) : Except AdapterError Nat :=
  if p.input_mint = s.base_mint then
    if s.market_metadata.base_atoms_per_base_lot = 0 then .error .panic
    else
      walkBids s.market_metadata s.ladder.bids
        (p.in_amount / s.market_metadata.base_atoms_per_base_lot) 0
  else
    if s.market_metadata.quote_atoms_per_quote_lot = 0 then .error .panic
    else
      walkAsks s.market_metadata s.ladder.asks
        (p.in_amount / s.market_metadata.quote_atoms_per_quote_lot) 0

/-- The method `JupiterPhoenix::quote` (src/src/lib.rs:109-153): the ladder walk followed
by the taker-fee scaling `out * (10000 - taker_fee_bps) / 10000` in wrapping
`u64` arithmetic. -/
def quote (s : JupiterPhoenix) (p : QuoteParams) : Except AdapterError Nat :=
  match quoteRaw s p with
  | .error e => .error e
  | .ok out => .ok (wmul out (wsub 10000 s.taker_fee_bps) / 10000)

/-! ## Claim-side (spec-vocabulary) computations

The following definitions transcribe the quoting computation exactly as the
wording of spec §4.4 (and claims C1/C2), in pure (unbounded) natural-number
arithmetic.  The spec names the metadata fields differently from the code:
its `base_lot_size` is `base_atoms_per_base_lot`, its `quote_lot_size` is
`quote_atoms_per_quote_lot`, its `base_lots_per_base_unit` is
`num_base_lots_per_base_unit`, and its
`tick_size_in_quote_lots_per_base_unit_per_tick` is
`tick_size_in_quote_atoms_per_base_unit / quote_lot_size` (§4.2 step 4, an
exact division for valid markets). -/

/-- Case A of §4.4 as the claim C1 words it: at each bid level with a
positive remaining budget, add
`price * min(size, budget) * tickLots * quoteLotSize / baseLotsPerUnit`
and decrement the budget by the full level size, saturating at zero. -/
def specSellLoop (tickLots quoteLotSize baseLotsPerUnit : Nat) :
    List LadderOrder → Nat → Nat
  | [], _ => 0
  | o :: rest, budget =>
    if budget = 0 then 0
    else
      o.price_in_ticks * min o.size_in_base_lots budget * tickLots * quoteLotSize /
          baseLotsPerUnit
        + specSellLoop tickLots quoteLotSize baseLotsPerUnit rest
            (budget - o.size_in_base_lots)

/-- The pre-fee sell-base output in the wording of claim C1, with the
spec tick-in-quote-lots spelled via the metadata fields of the code. -/
def specSellTotal (m : MarketMetadata) (in_amount : Nat) (bids : List LadderOrder) : Nat :=
  specSellLoop (m.tick_size_in_quote_atoms_per_base_unit / m.quote_atoms_per_quote_lot)
    m.quote_atoms_per_quote_lot m.num_base_lots_per_base_unit bids
    (in_amount / m.base_atoms_per_base_lot)

/-- The full sell-base quote of claim C1: the walk accumulator scaled by
`(10000 - taker_fee_bps) / 10000`, truncating. -/
def specQuoteSellBase (m : MarketMetadata) (fee in_amount : Nat)
    (bids : List LadderOrder) : Nat :=
  specSellTotal m in_amount bids * (10000 - fee) / 10000

/-- The sell-base loop with the per-level formula of the code itself
(`min(size, budget) * price * tick_atoms / baseLotsPerUnit`) in pure
arithmetic; the bridge between this and `specSellLoop` is the exactness of
the tick-size division. -/
def bidsLoopPure (tick baseLotsPerUnit : Nat) : List LadderOrder → Nat → Nat
  | [], _ => 0
  | o :: rest, budget =>
    if budget = 0 then 0
    else
      min o.size_in_base_lots budget * o.price_in_ticks * tick / baseLotsPerUnit
        + bidsLoopPure tick baseLotsPerUnit rest (budget - o.size_in_base_lots)

/-- Case B of §4.4 as the claim C2 words it: at each ask level with a
positive remaining budget, the cost of the level in quote lots is
`price * size * tickLots / baseLotsPerUnit`, the affordable base lots are
`budget * baseLotsPerUnit / (tickLots * price)`, the fill is
`min(size, affordable)` base lots paid out in base atoms, and the budget is
decremented by the full level cost. -/
def specBuyLoop (tickLots baseLotsPerUnit baseLotSize : Nat) :
    List LadderOrder → Nat → Nat
  | [], _ => 0
  | o :: rest, budget =>
    if budget = 0 then 0
    else
      min o.size_in_base_lots
          (budget * baseLotsPerUnit / (tickLots * o.price_in_ticks)) * baseLotSize
        + specBuyLoop tickLots baseLotsPerUnit baseLotSize rest
            (budget - o.price_in_ticks * o.size_in_base_lots * tickLots / baseLotsPerUnit)

/-- The full buy-base quote of claim C2, fee applied after the walk. -/
def specQuoteBuyBase (m : MarketMetadata) (fee in_amount : Nat)
    (asks : List LadderOrder) : Nat :=
  specBuyLoop (m.tick_size_in_quote_atoms_per_base_unit / m.quote_atoms_per_quote_lot)
    m.num_base_lots_per_base_unit m.base_atoms_per_base_lot asks
    (in_amount / m.quote_atoms_per_quote_lot) * (10000 - fee) / 10000

/-! ## Construction and refresh

`new_from_keyed_account` (src/src/lib.rs:45-64) and `update`
(src/src/lib.rs:100-107) split the account bytes at the fixed header length
(`split_at` panics when the buffer is shorter), decode the header, and
dispatch the body through the layout registry.  The `phoenix` /
`phoenix_sdk_core` crates performing the decoding are not in `src/`, so they
are modelled from the spec below. -/

/-- Read `len` bytes of `b` starting at `off` as a little-endian number
(missing bytes read as zero, matching a fixed-width field view). -/
def readLE (b : List Nat) (off len : Nat) : Nat :=
  ((b.drop off).take len).foldr (fun byte acc => byte % 256 + 256 * acc) 0

/-- The little-endian 8-byte encoding of `n % 2^64`; used to build concrete
account buffers. -/
def le64Bytes (n : Nat) : List Nat :=
  [n % 256, n / 256 % 256, n / 256 ^ 2 % 256, n / 256 ^ 3 % 256,
   n / 256 ^ 4 % 256, n / 256 ^ 5 % 256, n / 256 ^ 6 % 256, n / 256 ^ 7 % 256]

/-- The size/configuration tag of a market (`phoenix::program::MarketSizeParams`). -/
structure MarketSizeParams where
  bids_size : Nat
  asks_size : Nat
  num_seats : Nat
deriving DecidableEq, Repr

/-- Per-token constants of the header (`phoenix` `TokenParams`). -/
structure TokenParams where
  decimals : Nat
  vault_bump : Nat
  mint_key : Pubkey
  vault_key : Pubkey
deriving DecidableEq, Repr

/-- The fixed market header (`phoenix::program::MarketHeader`). -/
structure MarketHeader where
  discriminant : Nat
  status : Nat
  market_size_params : MarketSizeParams
  base_params : TokenParams
  base_lot_size : Nat
  quote_params : TokenParams
  quote_lot_size : Nat
  tick_size_in_quote_atoms_per_base_unit : Nat
  authority : Pubkey
  fee_recipient : Pubkey
  market_sequence_number : Nat
  successor : Pubkey
  raw_base_units_per_base_unit : Nat
deriving DecidableEq, Repr

/-- Modelled from the spec: the fixed byte length of the on-chain market
header (the `phoenix` crate defining it is not in `src/`).  The exact
constant is immaterial to the claims, which depend only on the header being
a fixed-length prefix of the account bytes (§6). -/
def marketHeaderSize : Nat := 576

/-- Modelled from the spec: positional little-endian decoding of the fixed
header layout of §6 (size/config tag, base/quote mint identifiers, decimal
counts, lot-size and tick-size fields); the `bytemuck` cast in the source
operates on an exact-length slice, so in the embedding the positional decode
of such a slice always succeeds (its alignment failure mode is a memory-layout
property outside a shallow embedding). -/
def decodeMarketHeader (b : List Nat) : MarketHeader :=
  { discriminant := readLE b 0 8
    status := readLE b 8 8
    market_size_params := ⟨readLE b 16 8, readLE b 24 8, readLE b 32 8⟩
    base_params := ⟨readLE b 40 4, readLE b 44 4, readLE b 48 32, readLE b 80 32⟩
    base_lot_size := readLE b 112 8
    quote_params := ⟨readLE b 120 4, readLE b 124 4, readLE b 128 32, readLE b 160 32⟩
    quote_lot_size := readLE b 192 8
    tick_size_in_quote_atoms_per_base_unit := readLE b 200 8
    authority := readLE b 208 32
    fee_recipient := readLE b 240 32
    market_sequence_number := readLE b 272 8
    successor := readLE b 280 32
    raw_base_units_per_base_unit := readLE b 312 4 }

/-- Modelled from the spec: the set of recognized
size/configuration tags (§4.1).  The concrete members stand in for the known
historical layout variants; the claims depend only on the registry being a
fixed set with explicit rejection of everything else. -/
def knownMarketSizes : List MarketSizeParams :=
  [⟨512, 512, 128⟩, ⟨1024, 1024, 128⟩, ⟨2048, 2048, 128⟩, ⟨4096, 4096, 128⟩]

/-- The market-specific accessor produced by the layout dispatch
(the `inner` market of `phoenix::program::load_with_dispatch`): it exposes the
taker fee and the ladder-extraction operation (§4.2 step 3). -/
structure Market where
  taker_fee_bps : Nat
  raw_bids : List LadderOrder
  raw_asks : List LadderOrder
deriving DecidableEq, Repr

/-- The operation `get_ladder(levels)` (§4.3): materialize at most `levels` best levels per
side; a read-only traversal. -/
def Market.get_ladder (mk : Market) (levels : Nat) : Ladder :=
  ⟨mk.raw_bids.take levels, mk.raw_asks.take levels⟩

/-- Modelled from the spec: decoding of the variable body into the
market-specific accessor (§4.2 step 3, §4.3).  The on-chain body format is
not in `src/`; the embedding reads the taker fee, the two level counts and
then the per-level `(price_in_ticks, size_in_base_lots)` pairs positionally. -/
def decodeMarketBody (b : List Nat) : Market :=
  { taker_fee_bps := readLE b 0 8
    raw_bids := (List.range (readLE b 8 8)).map
      (fun i => ⟨readLE b (24 + 16 * i) 8, readLE b (32 + 16 * i) 8⟩)
    raw_asks := (List.range (readLE b 16 8)).map
      (fun i => ⟨readLE b (24 + 16 * readLE b 8 8 + 16 * i) 8,
                 readLE b (32 + 16 * readLE b 8 8 + 16 * i) 8⟩) }

/-- Modelled from the spec: `phoenix::program::load_with_dispatch` (§4.1) —
return the decoder matching the size/configuration tag, or fail with
`UnsupportedLayout` when the tag is not recognized. -/
def load_with_dispatch (params : MarketSizeParams) (b : List Nat) :
    Except AdapterError Market :=
  if params ∈ knownMarketSizes then .ok (decodeMarketBody b) else .error .unsupportedLayout

/-- Modelled from the spec: `MarketMetadata::from_header` of
`phoenix_sdk_core` (§4.2) — derive the unit-conversion constants from the
decoded header; a zero lot size would make the derivations divide by zero. -/
def MarketMetadata.from_header (h : MarketHeader) : Except AdapterError MarketMetadata :=
  if h.base_lot_size = 0 then .error .panic
  else if h.quote_lot_size = 0 then .error .panic
  else
    .ok { base_decimals := h.base_params.decimals
          quote_decimals := h.quote_params.decimals
          base_atoms_per_base_lot := h.base_lot_size
          quote_atoms_per_quote_lot := h.quote_lot_size
          num_base_lots_per_base_unit :=
            10 ^ h.base_params.decimals * max h.raw_base_units_per_base_unit 1 /
              h.base_lot_size
          tick_size_in_quote_atoms_per_base_unit :=
            h.tick_size_in_quote_atoms_per_base_unit }

/-- The account payload handed to the adapter
(`jupiter_core::amm::PartialAccount`): its data bytes. -/
structure PartialAccount where
  data : List Nat
deriving DecidableEq, Repr

/-- A keyed account (`jupiter_core::amm::KeyedAccount`). -/
structure KeyedAccount where
  key : Pubkey
  account : PartialAccount
deriving DecidableEq, Repr

/-- Modelled opaque constant: the Phoenix program id (`phoenix::id()`). -/
def phoenixId : Pubkey := 54696

/-- The constructor `JupiterPhoenix::new_from_keyed_account` (src/src/lib.rs:45-64):
`split_at(size_of::<MarketHeader>())` panics when the buffer is shorter than
the header; the header is decoded, the body dispatched through the registry,
the taker fee read (truncated to `u16`), the metadata derived, and the ladder
materialized with depth bound `u64::MAX`. -/
def new_from_keyed_account (ka : KeyedAccount) : Except AdapterError JupiterPhoenix :=
  if ka.account.data.length < marketHeaderSize then .error .panic
  else
    match load_with_dispatch
        (decodeMarketHeader (ka.account.data.take marketHeaderSize)).market_size_params
        (ka.account.data.drop marketHeaderSize) with
    | .error e => .error e
    | .ok market =>
      match MarketMetadata.from_header
          (decodeMarketHeader (ka.account.data.take marketHeaderSize)) with
      | .error e => .error e
      | .ok md =>
        .ok { market_key := ka.key
              label := "Phoenix"
              base_mint := (decodeMarketHeader
                (ka.account.data.take marketHeaderSize)).base_params.mint_key
              quote_mint := (decodeMarketHeader
                (ka.account.data.take marketHeaderSize)).quote_params.mint_key
              program_id := phoenixId
              market_metadata := md
              taker_fee_bps := market.taker_fee_bps % 2 ^ 16
              ladder := market.get_ladder (2 ^ 64 - 1) }

/-- Lookup in the refresh accounts map (`HashMap::get` keyed by pubkey). -/
def lookupAccount : List (Pubkey × PartialAccount) → Pubkey → Option PartialAccount
  | [], _ => none
  | (k, a) :: rest, key => if k = key then some a else lookupAccount rest key

/-- The method `JupiterPhoenix::update` (src/src/lib.rs:100-107): the map lookup is
`unwrap`ped (a panic when the key of the market itself is missing), the fresh bytes
are split and decoded exactly as at construction, and only the `ladder` field
is replaced. -/
def update (s : JupiterPhoenix) (accounts_map : List (Pubkey × PartialAccount)) :
    Except AdapterError JupiterPhoenix :=
  match lookupAccount accounts_map s.market_key with
  | none => .error .panic
  | some acct =>
    if acct.data.length < marketHeaderSize then .error .panic
    else
      match load_with_dispatch
          (decodeMarketHeader (acct.data.take marketHeaderSize)).market_size_params
          (acct.data.drop marketHeaderSize) with
      | .error e => .error e
      | .ok market => .ok { s with ladder := market.get_ladder (2 ^ 64 - 1) }

/-! ## Concrete instances

Small concrete adapter states, requests and account buffers used to
instantiate the claim theorems and to exhibit counterexamples.  Metadata
fields read `⟨base_decimals, quote_decimals, base_atoms_per_base_lot,
quote_atoms_per_quote_lot, num_base_lots_per_base_unit,
tick_size_in_quote_atoms_per_base_unit⟩`. -/

/-- Sell-base market: base lot 2, tick 3 quote atoms, fee 100 bps, one bid
level (price 10 ticks, size 4 lots). -/
def s1w : JupiterPhoenix :=
  ⟨41, "Phoenix", 1, 2, phoenixId, ⟨0, 0, 2, 1, 1, 3⟩, 100, ⟨[⟨10, 4⟩], []⟩⟩

/-- Sell-base market whose single bid makes the level product
`2 * 2^32 * 2^32 = 2^65` exceed the `u64` range. -/
def s1c : JupiterPhoenix :=
  ⟨42, "Phoenix", 1, 2, phoenixId, ⟨0, 0, 1, 1, 1, 2 ^ 32⟩, 0, ⟨[⟨2 ^ 32, 2⟩], []⟩⟩

/-- Buy-base market with quote lot size 2 and tick size 2 quote atoms
(1 quote lot) per base unit: the market on which the quote-atom /
quote-lot unit mixing is visible. -/
def s2 : JupiterPhoenix :=
  ⟨43, "Phoenix", 1, 2, phoenixId, ⟨0, 0, 1, 2, 1, 2⟩, 0, ⟨[], [⟨1, 10⟩]⟩⟩

/-- Market used to quote a request whose mints match neither reserve mint. -/
def s3 : JupiterPhoenix :=
  ⟨44, "Phoenix", 1, 2, phoenixId, ⟨0, 0, 5, 5, 1, 5⟩, 0, ⟨[⟨4, 4⟩], []⟩⟩

/-- Market with `num_base_lots_per_base_unit = 0`: the conversion helper
divides by zero on the first touched level. -/
def s6w : JupiterPhoenix :=
  ⟨45, "Phoenix", 1, 2, phoenixId, ⟨0, 0, 1, 1, 0, 1⟩, 0, ⟨[], [⟨1, 1⟩]⟩⟩

/-- Sell-base market whose level product `2 * 2^33 * 2^33 = 2^67` wraps to 0. -/
def s6c : JupiterPhoenix :=
  ⟨46, "Phoenix", 1, 2, phoenixId, ⟨0, 0, 1, 1, 1, 2 ^ 33⟩, 0, ⟨[⟨2 ^ 33, 2⟩], []⟩⟩

/-- Market whose walk output is `2^60`, so that multiplying by 10000 in the
fee step wraps while multiplying by 1 does not. -/
def s7c : JupiterPhoenix :=
  ⟨47, "Phoenix", 1, 2, phoenixId, ⟨0, 0, 1, 1, 1, 1⟩, 0, ⟨[⟨2 ^ 30, 2 ^ 30⟩], []⟩⟩

/-- Small overflow-free sell-base market for the fee-monotonicity witness. -/
def s7w : JupiterPhoenix :=
  ⟨48, "Phoenix", 1, 2, phoenixId, ⟨0, 0, 2, 1, 1, 3⟩, 0, ⟨[⟨10, 4⟩], []⟩⟩

/-- Market with base lot 1000 atoms and quote lot 100 atoms, used for the
dust-input witness. -/
def s8w : JupiterPhoenix :=
  ⟨49, "Phoenix", 1, 2, phoenixId, ⟨9, 6, 1000, 100, 1, 500⟩, 5, ⟨[⟨10, 7⟩], [⟨11, 7⟩]⟩⟩

/-- Market whose best ask has `price_in_ticks = 0`. -/
def s10z : JupiterPhoenix :=
  ⟨50, "Phoenix", 1, 2, phoenixId, ⟨0, 0, 1, 1, 1, 1⟩, 0, ⟨[], [⟨0, 5⟩]⟩⟩

/-- Market with positive tick (`2^32`) and positive ask price (`2^32`) whose
wrapped divisor `2^32 * 2^32 mod 2^64` is zero. -/
def s10c : JupiterPhoenix :=
  ⟨51, "Phoenix", 1, 2, phoenixId, ⟨0, 0, 1, 1, 1, 2 ^ 32⟩, 0, ⟨[], [⟨2 ^ 32, 1⟩]⟩⟩

/-- Well-formed buy-base market for the ask-path totality witness. -/
def s10w : JupiterPhoenix :=
  ⟨52, "Phoenix", 1, 2, phoenixId, ⟨0, 0, 1, 1, 1, 2⟩, 0, ⟨[], [⟨3, 4⟩]⟩⟩

/-- Adapter state refreshed against maps that lack its market key. -/
def s5 : JupiterPhoenix :=
  ⟨53, "Phoenix", 1, 2, phoenixId, ⟨0, 0, 1, 1, 1, 1⟩, 0, ⟨[⟨9, 9⟩], [⟨8, 8⟩]⟩⟩

/-- Second adapter state for the missing-account witness. -/
def s5w : JupiterPhoenix :=
  ⟨54, "Phoenix", 1, 2, phoenixId, ⟨0, 0, 1, 1, 1, 1⟩, 0, ⟨[], []⟩⟩

/-- A keyed account with an empty data buffer (shorter than the header). -/
def ka4 : KeyedAccount := ⟨60, ⟨[]⟩⟩

/-- A keyed account with a 3-byte data buffer (shorter than the header). -/
def ka4w : KeyedAccount := ⟨61, ⟨[1, 2, 3]⟩⟩

/-- Adapter state refreshed in the frame-property witness. -/
def s9 : JupiterPhoenix :=
  ⟨11, "Phoenix", 1, 2, phoenixId, ⟨0, 0, 1, 1, 1, 1⟩, 25, ⟨[⟨5, 5⟩], [⟨6, 6⟩]⟩⟩

/-- A 600-byte account buffer: a 576-byte header whose size/config tag is the
registry member `(512, 512, 128)`, followed by a body with taker fee 7 and
empty bid/ask level lists. -/
def acct9 : PartialAccount :=
  ⟨List.replicate 16 0 ++ le64Bytes 512 ++ le64Bytes 512 ++ le64Bytes 128 ++
    List.replicate 536 0 ++ le64Bytes 7 ++ le64Bytes 0 ++ le64Bytes 0⟩

/-- Refresh map holding fresh bytes under the market key of `s9`. -/
def map9 : List (Pubkey × PartialAccount) := [(11, acct9)]

/-- The expected state after refreshing `s9` from `map9`: only the ladder
(now empty) differs. -/
def s9r : JupiterPhoenix := { s9 with ladder := ⟨[], []⟩ }

/-! ## Arithmetic helper lemmas -/

theorem wmul_eq_of_lt {a b : Nat} (h : a * b < u64Mod) : wmul a b = a * b :=
  Nat.mod_eq_of_lt h

theorem wadd_eq_of_lt {a b : Nat} (h : a + b < u64Mod) : wadd a b = a + b :=
  Nat.mod_eq_of_lt h

theorem wsub_eq_of_le {a b : Nat} (hb : b ≤ a) (ha : a < u64Mod) : wsub a b = a - b := by
  unfold wsub
  have h1 : a + u64Mod - b = u64Mod + (a - b) := by omega
  have h2 : a - b < u64Mod := by omega
  rw [h1, Nat.add_mod_left, Nat.mod_eq_of_lt h2]

/-! ## Walk lemmas -/

theorem walkBids_zero (m : MarketMetadata) (ls : List LadderOrder) (out : Nat) :
    walkBids m ls 0 out = .ok out := by
  cases ls <;> simp [walkBids]

theorem walkAsks_zero (m : MarketMetadata) (ls : List LadderOrder) (out : Nat) :
    walkAsks m ls 0 out = .ok out := by
  cases ls <;> simp [walkAsks]

theorem walkBids_error_panic (m : MarketMetadata) :
    ∀ (ls : List LadderOrder) (budget out : Nat) (e : AdapterError),
      walkBids m ls budget out = .error e → e = .panic := by
  intro ls
  induction ls with
  | nil => intro budget out e h; simp [walkBids] at h
  | cons o rest ih =>
    intro budget out e h
    by_cases hb : budget = 0
    · simp [walkBids, hb] at h
    · by_cases hn : m.num_base_lots_per_base_unit = 0
      · simp [walkBids, hb, hn] at h; exact h.symm
      · simp only [walkBids, if_neg hb, if_neg hn] at h
        exact ih _ _ _ h

theorem walkAsks_error_panic (m : MarketMetadata) :
    ∀ (ls : List LadderOrder) (budget out : Nat) (e : AdapterError),
      walkAsks m ls budget out = .error e → e = .panic := by
  intro ls
  induction ls with
  | nil => intro budget out e h; simp [walkAsks] at h
  | cons o rest ih =>
    intro budget out e h
    by_cases hb : budget = 0
    · simp [walkAsks, hb] at h
    · by_cases hn : m.num_base_lots_per_base_unit = 0
      · simp [walkAsks, hb, hn] at h; exact h.symm
      · by_cases hd :
          wmul m.tick_size_in_quote_atoms_per_base_unit o.price_in_ticks = 0
        · simp [walkAsks, hb, hn, hd] at h; exact h.symm
        · simp only [walkAsks, if_neg hb, if_neg hn, if_neg hd] at h
          exact ih _ _ _ h

theorem walkBids_pure (m : MarketMetadata)
    (hn : 0 < m.num_base_lots_per_base_unit)
    (ht : 0 < m.tick_size_in_quote_atoms_per_base_unit) :
    ∀ (bids : List LadderOrder) (budget out : Nat),
      (∀ o ∈ bids,
        o.size_in_base_lots * o.price_in_ticks *
          m.tick_size_in_quote_atoms_per_base_unit < u64Mod) →
      out + bidsLoopPure m.tick_size_in_quote_atoms_per_base_unit
          m.num_base_lots_per_base_unit bids budget < u64Mod →
      walkBids m bids budget out =
        .ok (out + bidsLoopPure m.tick_size_in_quote_atoms_per_base_unit
          m.num_base_lots_per_base_unit bids budget) := by
  intro bids
  induction bids with
  | nil => intro budget out _ _; simp [walkBids, bidsLoopPure]
  | cons o rest ih =>
    intro budget out hterms hbound
    by_cases hb : budget = 0
    · simp [walkBids, bidsLoopPure, hb]
    · have hne : m.num_base_lots_per_base_unit ≠ 0 := Nat.pos_iff_ne_zero.mp hn
      have hhead := hterms o (List.mem_cons_self o rest)
      have hlots : min o.size_in_base_lots budget ≤ o.size_in_base_lots :=
        Nat.min_le_left _ _
      have h1 : min o.size_in_base_lots budget * o.price_in_ticks *
          m.tick_size_in_quote_atoms_per_base_unit < u64Mod :=
        lt_of_le_of_lt
          (Nat.mul_le_mul_right _ (Nat.mul_le_mul_right _ hlots)) hhead
      have h2 : min o.size_in_base_lots budget * o.price_in_ticks < u64Mod :=
        lt_of_le_of_lt (Nat.le_mul_of_pos_right _ ht) h1
      have e1 : base_lots_and_price_to_quote_atoms m
            (min o.size_in_base_lots budget) o.price_in_ticks
          = min o.size_in_base_lots budget * o.price_in_ticks *
              m.tick_size_in_quote_atoms_per_base_unit /
              m.num_base_lots_per_base_unit := by
        unfold base_lots_and_price_to_quote_atoms
        rw [wmul_eq_of_lt h2, wmul_eq_of_lt h1]
      have hloop : bidsLoopPure m.tick_size_in_quote_atoms_per_base_unit
            m.num_base_lots_per_base_unit (o :: rest) budget
          = min o.size_in_base_lots budget * o.price_in_ticks *
              m.tick_size_in_quote_atoms_per_base_unit /
              m.num_base_lots_per_base_unit
            + bidsLoopPure m.tick_size_in_quote_atoms_per_base_unit
                m.num_base_lots_per_base_unit rest (budget - o.size_in_base_lots) := by
        simp [bidsLoopPure, hb]
      rw [hloop] at hbound ⊢
      have hstep : walkBids m (o :: rest) budget out
          = walkBids m rest (budget - o.size_in_base_lots)
              (wadd out (base_lots_and_price_to_quote_atoms m
                (min o.size_in_base_lots budget) o.price_in_ticks)) := by
        simp [walkBids, hb, hne]
      have hadd : wadd out (base_lots_and_price_to_quote_atoms m
            (min o.size_in_base_lots budget) o.price_in_ticks)
          = out + min o.size_in_base_lots budget * o.price_in_ticks *
              m.tick_size_in_quote_atoms_per_base_unit /
              m.num_base_lots_per_base_unit := by
        rw [e1]; exact wadd_eq_of_lt (by omega)
      rw [hstep, hadd,
        ih (budget - o.size_in_base_lots) _
          (fun o2 ho2 => hterms o2 (List.mem_cons_of_mem _ ho2)) (by omega)]
      congr 1
      omega

theorem specSellLoop_eq_bidsLoopPure {tick q : Nat} (n : Nat) (hdvd : q ∣ tick) :
    ∀ (bids : List LadderOrder) (budget : Nat),
      specSellLoop (tick / q) q n bids budget = bidsLoopPure tick n bids budget := by
  intro bids
  induction bids with
  | nil => intro budget; rfl
  | cons o rest ih =>
    intro budget
    by_cases hb : budget = 0
    · simp [specSellLoop, bidsLoopPure, hb]
    · have hnum : o.price_in_ticks * min o.size_in_base_lots budget * (tick / q) * q
          = min o.size_in_base_lots budget * o.price_in_ticks * tick := by
        rw [Nat.mul_assoc, Nat.div_mul_cancel hdvd]
        ring
      simp only [specSellLoop, bidsLoopPure, if_neg hb, ih, hnum]

theorem walkAsks_total (m : MarketMetadata)
    (hn : 0 < m.num_base_lots_per_base_unit)
    (ht : 0 < m.tick_size_in_quote_atoms_per_base_unit) :
    ∀ (asks : List LadderOrder) (budget out : Nat),
      (∀ o ∈ asks, 0 < o.price_in_ticks ∧
        m.tick_size_in_quote_atoms_per_base_unit * o.price_in_ticks < u64Mod) →
      ∃ v, walkAsks m asks budget out = .ok v := by
  intro asks
  induction asks with
  | nil => intro budget out _; exact ⟨out, rfl⟩
  | cons o rest ih =>
    intro budget out hterms
    by_cases hb : budget = 0
    · exact ⟨out, by simp [walkAsks, hb]⟩
    · have hne : m.num_base_lots_per_base_unit ≠ 0 := Nat.pos_iff_ne_zero.mp hn
      obtain ⟨hp, hlt⟩ := hterms o (List.mem_cons_self o rest)
      have hd : wmul m.tick_size_in_quote_atoms_per_base_unit o.price_in_ticks
          = m.tick_size_in_quote_atoms_per_base_unit * o.price_in_ticks :=
        wmul_eq_of_lt hlt
      have hdne : wmul m.tick_size_in_quote_atoms_per_base_unit o.price_in_ticks ≠ 0 := by
        rw [hd]
        exact Nat.pos_iff_ne_zero.mp (Nat.mul_pos ht hp)
      have hstep : walkAsks m (o :: rest) budget out
          = walkAsks m rest
              (budget - base_lots_and_price_to_quote_atoms m
                o.size_in_base_lots o.price_in_ticks)
              (wadd out (wmul
                (min o.size_in_base_lots
                  (wmul budget m.num_base_lots_per_base_unit /
                    wmul m.tick_size_in_quote_atoms_per_base_unit o.price_in_ticks))
                m.base_atoms_per_base_lot)) := by
        simp [walkAsks, hb, hne, hdne]
      rw [hstep]
      exact ih _ _ (fun o2 ho2 => hterms o2 (List.mem_cons_of_mem _ ho2))

theorem quoteRaw_error_panic (s : JupiterPhoenix) (p : QuoteParams) (e : AdapterError)
    (h : quoteRaw s p = .error e) : e = .panic := by
  unfold quoteRaw at h
  by_cases hm : p.input_mint = s.base_mint
  · rw [if_pos hm] at h
    by_cases hz : s.market_metadata.base_atoms_per_base_lot = 0
    · rw [if_pos hz] at h
      injection h with h2
      exact h2.symm
    · rw [if_neg hz] at h
      exact walkBids_error_panic _ _ _ _ _ h
  · rw [if_neg hm] at h
    by_cases hz : s.market_metadata.quote_atoms_per_quote_lot = 0
    · rw [if_pos hz] at h
      injection h with h2
      exact h2.symm
    · rw [if_neg hz] at h
      exact walkAsks_error_panic _ _ _ _ _ h

theorem quote_error_panic (s : JupiterPhoenix) (p : QuoteParams) (e : AdapterError)
    (h : quote s p = .error e) : e = .panic := by
  unfold quote at h
  cases hq : quoteRaw s p with
  | error e2 =>
    rw [hq] at h
    injection h with h2
    exact h2 ▸ quoteRaw_error_panic s p e2 hq
  | ok v =>
    rw [hq] at h
    exact Except.noConfusion h

/-! ## The claims -/

/-- Claim C8 (confirmed): a quote request whose input amount is smaller than
one lot of the input asset (one base lot when the input mint is the base
mint, one quote lot otherwise) returns `out_amount = 0` and no error: the
whole-lot budget truncates to zero, the walk is skipped, and the fee scaling
of zero is zero. -/
theorem c8_dust_input_quotes_zero (s : JupiterPhoenix) (p : QuoteParams)
    (h : (p.input_mint = s.base_mint ∧
            p.in_amount < s.market_metadata.base_atoms_per_base_lot) ∨
         (p.input_mint ≠ s.base_mint ∧
            p.in_amount < s.market_metadata.quote_atoms_per_quote_lot)) :
    quote s p = .ok 0 := by
  have hraw : quoteRaw s p = .ok 0 := by
    unfold quoteRaw
    rcases h with ⟨hm, hlt⟩ | ⟨hm, hlt⟩
    · rw [if_pos hm, if_neg (by omega : ¬ s.market_metadata.base_atoms_per_base_lot = 0),
        Nat.div_eq_of_lt hlt]
      exact walkBids_zero _ _ _
    · rw [if_neg hm, if_neg (by omega : ¬ s.market_metadata.quote_atoms_per_quote_lot = 0),
        Nat.div_eq_of_lt hlt]
      exact walkAsks_zero _ _ _
  simp [quote, hraw, wmul]

/-- Witness for C8 at `s8w` (base lot 1000 atoms): selling 999 base atoms
quotes zero. -/
theorem c8_witness : quote s8w ⟨999, 1, 2⟩ = .ok 0 :=
  c8_dust_input_quotes_zero s8w ⟨999, 1, 2⟩ (Or.inl ⟨rfl, by decide⟩)

/-- Claim C3 amended: `quote` performs no mint-pair validation at all.  The
output mint is ignored entirely, and the only outcomes are a numeric quote or
the division-by-zero panic — never an `InvalidMintPair` error. -/
theorem c3_no_mint_validation (s : JupiterPhoenix) (p : QuoteParams) (om : Pubkey) :
    quote s p = quote s ⟨p.in_amount, p.input_mint, om⟩ ∧
    (∃ v, quote s p = .ok v ∨ quote s p = .error .panic) := by
  refine ⟨rfl, ?_⟩
  cases hq : quote s p with
  | ok v => exact ⟨v, Or.inl rfl⟩
  | error e =>
    have he := quote_error_panic s p e hq
    subst he
    exact ⟨0, Or.inr rfl⟩

/-- Claim C3 counterexample: on market `s3` (base mint 1, quote mint 2) a
request whose mints 7 and 8 match neither reserve mint still returns the
numeric quote 0 (the empty ask side), not an `InvalidMintPair` error. -/
theorem c3_counterexample :
    (7 : Pubkey) ≠ s3.base_mint ∧ (7 : Pubkey) ≠ s3.quote_mint ∧
    (8 : Pubkey) ≠ s3.base_mint ∧ (8 : Pubkey) ≠ s3.quote_mint ∧
    quote s3 ⟨100, 7, 8⟩ = .ok 0 := by decide

/-- Claim C6 amended: the quoting arithmetic is wrapping `u64` arithmetic and
no overflow check exists: the only error `quote` ever surfaces is the
division-by-zero panic, never `ArithmeticOverflow`. -/
theorem c6_no_overflow_error (s : JupiterPhoenix) (p : QuoteParams) (e : AdapterError)
    (h : quote s p = .error e) : e = .panic :=
  quote_error_panic s p e h

/-- Witness for C6: on `s6w` (conversion ratio 0) the quote fails with the
panic marker, the only error the classification allows. -/
theorem c6_witness :
    quote s6w ⟨5, 3, 1⟩ = .error .panic ∧ AdapterError.panic = .panic :=
  ⟨by decide, c6_no_overflow_error s6w ⟨5, 3, 1⟩ .panic (by decide)⟩

/-- Claim C6 counterexample: on `s6c` the exact level value is
`2 * 2^33 * 2^33 = 2^67`; the code returns the wrapped value 0 (`2^67 mod
2^64`), not an `ArithmeticOverflow` error. -/
theorem c6_counterexample :
    quote s6c ⟨2, 1, 2⟩ = .ok 0 ∧
    quote s6c ⟨2, 1, 2⟩ ≠ .error .arithmeticOverflow ∧
    specQuoteSellBase s6c.market_metadata 0 2 s6c.ladder.bids = 2 ^ 67 ∧
    (0 : Nat) ≠ 2 ^ 67 := by decide

/-- Claim C7 amended: for a fixed market state and request, when the walk
output `out` is fixed and the fee multiplication `out * (10000 - fee1)` stays
within the `u64` range, the quote is non-increasing in the taker fee over
`[0, 10000)`. -/
theorem c7_fee_monotonic (s : JupiterPhoenix) (p : QuoteParams)
    (fee1 fee2 out : Nat) (h12 : fee1 ≤ fee2) (h2 : fee2 < 10000)
    (hraw : quoteRaw s p = .ok out) (hov : out * (10000 - fee1) < u64Mod) :
    ∃ v1 v2,
      quote { s with taker_fee_bps := fee1 } p = .ok v1 ∧
      quote { s with taker_fee_bps := fee2 } p = .ok v2 ∧
      v2 ≤ v1 := by
  have h1 : fee1 < 10000 := lt_of_le_of_lt h12 h2
  have hlt : (10000 : Nat) < u64Mod := by norm_num [u64Mod]
  have hraw1 : quoteRaw { s with taker_fee_bps := fee1 } p = .ok out := hraw
  have hraw2 : quoteRaw { s with taker_fee_bps := fee2 } p = .ok out := hraw
  have hov2 : out * (10000 - fee2) < u64Mod :=
    lt_of_le_of_lt (Nat.mul_le_mul_left out (by omega)) hov
  refine ⟨out * (10000 - fee1) / 10000, out * (10000 - fee2) / 10000, ?_, ?_, ?_⟩
  · simp only [quote, hraw1]
    rw [wsub_eq_of_le (le_of_lt h1) hlt, wmul_eq_of_lt hov]
  · simp only [quote, hraw2]
    rw [wsub_eq_of_le (le_of_lt h2) hlt, wmul_eq_of_lt hov2]
  · exact Nat.div_le_div_right (Nat.mul_le_mul_left out (by omega))

/-- Witness for C7 on `s7w` (walk output 120): fees 100 and 200 bps quote 118
and 117. -/
theorem c7_witness :
    ∃ v1 v2,
      quote { s7w with taker_fee_bps := 100 } ⟨9, 1, 2⟩ = .ok v1 ∧
      quote { s7w with taker_fee_bps := 200 } ⟨9, 1, 2⟩ = .ok v2 ∧
      v2 ≤ v1 :=
  c7_fee_monotonic s7w ⟨9, 1, 2⟩ 100 200 120 (by decide) (by decide)
    (by decide) (by decide)

/-- Claim C7 counterexample: on the market `s7c` the walk output is `2^60`;
with fee 0 the fee multiplication `2^60 * 10000` wraps to 0 while with fee
9999 it does not, so raising the fee from 0 to 9999 RAISES the quote from 0
to 115292150460684. -/
theorem c7_counterexample :
    quote { s7c with taker_fee_bps := 0 } ⟨2 ^ 30, 1, 2⟩ = .ok 0 ∧
    quote { s7c with taker_fee_bps := 9999 } ⟨2 ^ 30, 1, 2⟩ = .ok 115292150460684 ∧
    ¬ (115292150460684 ≤ (0 : Nat)) := by decide

/-- Claim C10 amended: on the quote-to-base path the division by
`tick_size * price` has no zero-divisor guard; when additionally to the
stated claim preconditions (positive tick size, positive ask prices) the metadata
divisor fields are positive and no per-level product `tick_size * price`
leaves the `u64` range, the division-by-zero branch is unreachable and
`quote` is total; on `s10z` an ask level with `price_in_ticks = 0` is reached
with a positive remaining budget and the zero divisor panics. -/
theorem c10_ask_division_totality :
    (∀ (s : JupiterPhoenix) (p : QuoteParams),
      p.input_mint ≠ s.base_mint →
      0 < s.market_metadata.quote_atoms_per_quote_lot →
      0 < s.market_metadata.num_base_lots_per_base_unit →
      0 < s.market_metadata.tick_size_in_quote_atoms_per_base_unit →
      (∀ o ∈ s.ladder.asks, 0 < o.price_in_ticks ∧
        s.market_metadata.tick_size_in_quote_atoms_per_base_unit *
          o.price_in_ticks < u64Mod) →
      ∃ v, quote s p = .ok v) ∧
    quote s10z ⟨3, 2, 1⟩ = .error .panic := by
  constructor
  · intro s p hm hq hn ht hasks
    obtain ⟨v, hv⟩ := walkAsks_total s.market_metadata hn ht s.ladder.asks
      (p.in_amount / s.market_metadata.quote_atoms_per_quote_lot) 0 hasks
    have hraw : quoteRaw s p = .ok v := by
      unfold quoteRaw
      rw [if_neg hm, if_neg (by omega : ¬ s.market_metadata.quote_atoms_per_quote_lot = 0)]
      exact hv
    exact ⟨wmul v (wsub 10000 s.taker_fee_bps) / 10000, by simp only [quote, hraw]⟩
  · decide

/-- Witness for C10 on the well-formed market `s10w`: the quote-to-base path
returns a numeric value. -/
theorem c10_witness : ∃ v, quote s10w ⟨10, 2, 1⟩ = .ok v :=
  c10_ask_division_totality.1 s10w ⟨10, 2, 1⟩ (by decide) (by decide) (by decide)
    (by decide) (by decide)

/-- Claim C10 counterexample: on `s10c` the tick size (`2^32`) and the single
ask price (`2^32`) are both strictly positive — the stated claim
preconditions hold — yet the wrapped divisor `2^32 * 2^32 mod 2^64` is zero
and `quote` panics instead of being total. -/
theorem c10_counterexample :
    0 < s10c.market_metadata.tick_size_in_quote_atoms_per_base_unit ∧
    (∀ o ∈ s10c.ladder.asks, 0 < o.price_in_ticks) ∧
    quote s10c ⟨1, 2, 1⟩ = .error .panic := by decide

/-- Claim C1 amended: for a sell-base request (input mint equal to the base
mint), under the documented metadata invariants (positive lot sizes,
conversion ratio and tick size; quote lot size dividing the tick size in
quote atoms, §4.2 step 4; fee below 10000 bps) and provided neither any
per-level product nor the fee multiplication leaves the `u64` range, the
returned amount is exactly the computation the claim describes. -/
theorem c1_sell_base_spec (s : JupiterPhoenix) (p : QuoteParams)
    (hm : p.input_mint = s.base_mint)
    (hbl : 0 < s.market_metadata.base_atoms_per_base_lot)
    (hn : 0 < s.market_metadata.num_base_lots_per_base_unit)
    (ht : 0 < s.market_metadata.tick_size_in_quote_atoms_per_base_unit)
    (hdvd : s.market_metadata.quote_atoms_per_quote_lot ∣
      s.market_metadata.tick_size_in_quote_atoms_per_base_unit)
    (hfee : s.taker_fee_bps < 10000)
    (hterms : ∀ o ∈ s.ladder.bids,
      o.size_in_base_lots * o.price_in_ticks *
        s.market_metadata.tick_size_in_quote_atoms_per_base_unit < u64Mod)
    (hov : specSellTotal s.market_metadata p.in_amount s.ladder.bids *
      (10000 - s.taker_fee_bps) < u64Mod) :
    quote s p = .ok (specQuoteSellBase s.market_metadata s.taker_fee_bps
      p.in_amount s.ladder.bids) := by
  have hbridge : specSellTotal s.market_metadata p.in_amount s.ladder.bids
      = bidsLoopPure s.market_metadata.tick_size_in_quote_atoms_per_base_unit
          s.market_metadata.num_base_lots_per_base_unit s.ladder.bids
          (p.in_amount / s.market_metadata.base_atoms_per_base_lot) :=
    specSellLoop_eq_bidsLoopPure _ hdvd _ _
  have hS : specSellTotal s.market_metadata p.in_amount s.ladder.bids < u64Mod :=
    lt_of_le_of_lt (Nat.le_mul_of_pos_right _ (by omega)) hov
  have hwalk : walkBids s.market_metadata s.ladder.bids
      (p.in_amount / s.market_metadata.base_atoms_per_base_lot) 0
      = .ok (specSellTotal s.market_metadata p.in_amount s.ladder.bids) := by
    rw [hbridge]
    have := walkBids_pure s.market_metadata hn ht s.ladder.bids
      (p.in_amount / s.market_metadata.base_atoms_per_base_lot) 0 hterms
      (by rw [Nat.zero_add, ← hbridge]; exact hS)
    rw [this, Nat.zero_add]
  have hraw : quoteRaw s p
      = .ok (specSellTotal s.market_metadata p.in_amount s.ladder.bids) := by
    unfold quoteRaw
    rw [if_pos hm,
      if_neg (by omega : ¬ s.market_metadata.base_atoms_per_base_lot = 0)]
    exact hwalk
  simp only [quote, hraw]
  unfold specQuoteSellBase
  rw [wsub_eq_of_le (le_of_lt hfee) (by norm_num [u64Mod]), wmul_eq_of_lt hov]

/-- Witness for C1 on `s1w`: selling 9 base atoms (4 whole lots) against the
bid (price 10, size 4) yields `10 * 4 * 3 = 120` quote atoms pre-fee and
`120 * 9900 / 10000 = 118` after the 100 bps fee, exactly the stated
computation. -/
theorem c1_witness :
    quote s1w ⟨9, 1, 2⟩
      = .ok (specQuoteSellBase s1w.market_metadata 100 9 s1w.ladder.bids) :=
  c1_sell_base_spec s1w ⟨9, 1, 2⟩ rfl (by decide) (by decide) (by decide)
    (by decide) (by decide) (by decide) (by decide)

/-- Claim C1 counterexample: on `s1c` — a market satisfying every documented
invariant — the stated claim computation yields `2 * 2^32 * 2^32 = 2^65` quote
atoms, but the wrapping `u64` arithmetic of the code returns
`2^65 mod 2^64 = 0`. -/
theorem c1_counterexample :
    quote s1c ⟨2, 1, 2⟩ = .ok 0 ∧
    specQuoteSellBase s1c.market_metadata 0 2 s1c.ladder.bids = 2 ^ 65 ∧
    (0 : Nat) ≠ 2 ^ 65 := by decide

/-- Claim C2: evaluation at the failing input.  On `s2` (quote lot size 2,
tick size 2 quote atoms = 1 quote lot per base unit per tick), spending
6 quote atoms (3 quote lots) on the ask (price 1, size 10): the stated
computation affords `3 * 1 / (1 * 1) = 3` base lots, but the code divides
the quote-lot budget by the tick size in quote ATOMS
(`3 * 1 / (2 * 1) = 1`) and decrements the quote-lot budget by a quote-atom
level cost, returning 1 base atom instead of 3. -/
theorem c2_unit_mismatch_eval :
    quote s2 ⟨6, 2, 1⟩ = .ok 1 ∧
    specQuoteBuyBase s2.market_metadata s2.taker_fee_bps 6 s2.ladder.asks = 3 ∧
    (1 : Nat) ≠ 3 := by decide

/-- Claim C4 amended: constructing the adapter from a buffer shorter than the
fixed market header panics (the `split_at` of the source), rather than returning a
typed `HeaderDecodeError`-style error; no adapter value — hence no partial
metadata — is ever produced from such a buffer. -/
theorem c4_short_buffer_panics (ka : KeyedAccount)
    (h : ka.account.data.length < marketHeaderSize) :
    new_from_keyed_account ka = .error .panic := by
  unfold new_from_keyed_account
  rw [if_pos h]

/-- Witness for C4: a 3-byte account buffer panics at construction. -/
theorem c4_witness : new_from_keyed_account ka4w = .error .panic :=
  c4_short_buffer_panics ka4w (by decide)

/-- Claim C4 counterexample: construction from an empty account buffer ends
in the panic marker, not in a typed header-decode error. -/
theorem c4_counterexample :
    ka4.account.data.length < marketHeaderSize ∧
    new_from_keyed_account ka4 = .error .panic ∧
    AdapterError.panic ≠ AdapterError.headerDecode := by decide

/-- Claim C5 amended: a refresh whose accounts map lacks the key of the market itself, it
panics (the `unwrap` of the source on the map lookup) instead of returning a typed
error; since the panic precedes any assignment, no updated state is produced
and the previously held snapshot and fields stand untouched. -/
theorem c5_missing_account_panics (s : JupiterPhoenix)
    (accounts_map : List (Pubkey × PartialAccount))
    (h : lookupAccount accounts_map s.market_key = none) :
    update s accounts_map = .error .panic := by
  unfold update
  rw [h]

/-- Witness for C5: refreshing `s5w` (market key 54) from a map holding only
key 99 panics. -/
theorem c5_witness : update s5w [(99, ⟨[]⟩)] = .error .panic :=
  c5_missing_account_panics s5w [(99, ⟨[]⟩)] (by decide)

/-- Claim C5 counterexample: refreshing `s5` from an empty accounts map ends
in the panic marker — the `unwrap` of the missing account — not in a returned
typed error. -/
theorem c5_counterexample :
    lookupAccount [] s5.market_key = none ∧
    update s5 [] = .error .panic ∧
    AdapterError.panic ≠ AdapterError.headerDecode := by decide

/-- Claim C9 (confirmed): whenever a refresh succeeds, only the ladder is
replaced — market key, label, base and quote mints, program id, market
metadata and taker fee hold exactly their prior values. -/
theorem c9_update_frame (s t : JupiterPhoenix)
    (accounts_map : List (Pubkey × PartialAccount))
    (h : update s accounts_map = .ok t) :
    t.market_key = s.market_key ∧ t.label = s.label ∧
    t.base_mint = s.base_mint ∧ t.quote_mint = s.quote_mint ∧
    t.program_id = s.program_id ∧ t.market_metadata = s.market_metadata ∧
    t.taker_fee_bps = s.taker_fee_bps := by
  unfold update at h
  split at h
  · exact Except.noConfusion h
  · split at h
    · exact Except.noConfusion h
    · split at h
      · exact Except.noConfusion h
      · injection h with h2
        subst h2
        exact ⟨rfl, rfl, rfl, rfl, rfl, rfl, rfl⟩

set_option maxRecDepth 100000 in
/-- Witness for C9: refreshing `s9` from the valid 600-byte buffer of `map9`
succeeds, replaces its ladder by the decoded (empty) one, and leaves every
other field equal. -/
theorem c9_witness :
    update s9 map9 = .ok s9r ∧
    (s9r.market_key = s9.market_key ∧ s9r.label = s9.label ∧
     s9r.base_mint = s9.base_mint ∧ s9r.quote_mint = s9.quote_mint ∧
     s9r.program_id = s9.program_id ∧ s9r.market_metadata = s9.market_metadata ∧
     s9r.taker_fee_bps = s9.taker_fee_bps) :=
  ⟨by decide, c9_update_frame s9 s9r map9 (by decide)⟩

example : quote
    { market_key := 0, label := "Phoenix", base_mint := 1, quote_mint := 2,
      program_id := 0,
      market_metadata :=
        { base_decimals := 0, quote_decimals := 0, base_atoms_per_base_lot := 1000000,
          quote_atoms_per_quote_lot := 1, num_base_lots_per_base_unit := 1,
          tick_size_in_quote_atoms_per_base_unit := 1 },
      taker_fee_bps := 0, ladder := ⟨[], [⟨100, 5⟩]⟩ }
    { in_amount := 2000000, input_mint := 2, output_mint := 1 } = .ok 5000000 := by
  decide
